import Mathlib

/-!
Shallow embedding of the OAI-PMH server core (scieloorg/oai-pmh) in Lean 4.

Python strings are modelled as lists of characters (`PyStr`), `None` as
`Option.none`, exceptions as explicit `Option`/`Except` results.  Each
definition below is a direct translation of a function of the Python source;
the originating file and symbol are named in its doc comment.  Python
behaviours that raise (for instance `int(None)`) are marked where the model
supplies a junk value instead; every theorem stays inside the raising-free
domain through explicit hypotheses.
-/

/-- Model of the Python `str` type: a list of unicode code points. -/
abbrev PyStr := List Char

/-- Convenience for writing concrete `PyStr` literals. -/
def pys (s : String) : PyStr := s.data

/-- Python `str.split(sep)` for a one-character separator.  Splitting the
empty string yields `[[]]`, like `''.split(':') == ['']`. -/
def pySplit (sep : Char) : PyStr → List PyStr
  | [] => [[]]
  | c :: cs =>
    if c = sep then [] :: pySplit sep cs
    else
      match pySplit sep cs with
      | [] => [[c]]
      | h :: t => (c :: h) :: t

/-- Python `sep.join(parts)` for a one-character separator. -/
def pyJoin (sep : Char) : List PyStr → PyStr
  | [] => []
  | [x] => x
  | x :: y :: t => x ++ sep :: pyJoin sep (y :: t)

/-- Python lexicographic string comparison `a <= b` (by code point). -/
def pyStrLe : PyStr → PyStr → Bool
  | [], _ => true
  | _ :: _, [] => false
  | a :: as, b :: bs => if a = b then pyStrLe as bs else decide (a.toNat < b.toNat)

/-- Python lexicographic string comparison `a < b` (by code point). -/
def pyStrLt : PyStr → PyStr → Bool
  | _, [] => false
  | [], _ :: _ => true
  | a :: as, b :: bs => if a = b then pyStrLt as bs else decide (a.toNat < b.toNat)

/-- Python `int(s)` on a string of decimal digits.  The real `int()` raises
`ValueError` on anything else; theorems restrict themselves to digit strings
through `allDigitsB` hypotheses, so the junk value returned on other inputs
is never relied upon. -/
def pyInt (l : PyStr) : Nat := l.foldl (fun a c => 10 * a + (c.toNat - 48)) 0

/-- Decimal digit character for a value below ten (used by `natToPyStr`). -/
def digitChar (d : Nat) : Char :=
  match d with
  | 0 => '0' | 1 => '1' | 2 => '2' | 3 => '3' | 4 => '4'
  | 5 => '5' | 6 => '6' | 7 => '7' | 8 => '8' | _ => '9'

/-- Fuel-driven worker for `natToPyStr` (structural recursion so that the
kernel can evaluate it; the fuel `n + 1` always suffices). -/
def natToPyStrGo : Nat → Nat → PyStr
  | 0, _ => []
  | fuel + 1, n =>
    if n < 10 then [digitChar n]
    else natToPyStrGo fuel (n / 10) ++ [digitChar (n % 10)]

/-- Python `str(n)` for a non-negative integer. -/
def natToPyStr (n : Nat) : PyStr := natToPyStrGo (n + 1) n

/-- Python `str(i)` for a possibly negative integer. -/
def intToPyStr (i : Int) : PyStr :=
  if i < 0 then '-' :: natToPyStr i.natAbs else natToPyStr i.toNat

/-- Decimal-digit test for a character (the `\d` of the token patterns). -/
def isDigitB (c : Char) : Bool := 48 ≤ c.toNat && c.toNat ≤ 57

/-- All characters of the string are decimal digits. -/
def allDigitsB (l : PyStr) : Bool := l.all isDigitB

/-- Python `s.index(c)`: position of the first occurrence of `c`.  The real
method raises `ValueError` when `c` is absent; this model then returns the
length of the string, a case no theorem depends on. -/
def pyIndexOf (c : Char) : PyStr → Nat
  | [] => 0
  | x :: xs => if x = c then 0 else pyIndexOf c xs + 1

/-- Helper mirroring `entities.ResumptionToken.encode`'s `ensure_str`:
`None` becomes the empty string, a string stays itself (the fields of the
claims at hand hold strings or `None` only, so the generic `str(obj)` branch
degenerates to the identity). -/
def ensure_str : Option PyStr → PyStr
  | none => []
  | some s => s

/-- Shared shape of `oaipmh/entities.py`'s `ResumptionToken` (class attribute
list `attrs = ['set', 'from_', 'until', 'offset', 'count', 'metadataPrefix']`).
The `PlainResumptionToken` subclass adds no state, so this structure also
plays its role.  Field renamings forced by Lean: `until_` models the Python
attribute `until` (a Lean keyword) and `metadataPfx` models `metadataPrefix`. -/
structure ResumptionToken where
  set : Option PyStr
  from_ : Option PyStr
  until_ : Option PyStr
  offset : Option PyStr
  count : Option PyStr
  metadataPfx : Option PyStr
deriving DecidableEq

/-- Translation of `ResumptionToken.decode` (entities.py:112): split the
token string on `:` and zip against the six attribute names; attributes
beyond the number of produced values stay `None` (the constructor's
`kwargs.get(attr, None)`). -/
def ResumptionToken.decode (s : PyStr) : ResumptionToken :=
  let values := pySplit ':' s
  { set := values.get? 0
    from_ := values.get? 1
    until_ := values.get? 2
    offset := values.get? 3
    count := values.get? 4
    metadataPfx := values.get? 5 }

/-- Translation of `ResumptionToken.encode` (entities.py:121): stringify the
six attributes (None to empty) and join them with `:`. -/
def ResumptionToken.encode (t : ResumptionToken) : PyStr :=
  pyJoin ':' [ensure_str t.set, ensure_str t.from_, ensure_str t.until_,
    ensure_str t.offset, ensure_str t.count, ensure_str t.metadataPfx]

/-- View of a token's six fields "taken as strings" (`None` and the empty
string coincide), the reading used by the round-trip property. -/
def ResumptionToken.toStrings (t : ResumptionToken) : List PyStr :=
  [ensure_str t.set, ensure_str t.from_, ensure_str t.until_,
    ensure_str t.offset, ensure_str t.count, ensure_str t.metadataPfx]

/-- Translation of `ResumptionToken._has_more_resources` (entities.py:150):
the current page is full when its length equals `int(batch_size)`.  Result
items carry no information the pagination logic uses, so they are modelled
as `Unit`. -/
def has_more_resources (resources : List Unit) (batch_size : PyStr) : Bool :=
  resources.length == pyInt batch_size

/-- Translation of `PlainResumptionToken.is_first_page` (entities.py:351):
`self.offset == '0'`  (a `None` offset compares unequal). -/
def plain_is_first_page (t : ResumptionToken) : Bool :=
  decide (t.offset = some (pys "0"))

/-- Translation of `PlainResumptionToken._incr_offset` (entities.py:365):
`new_offset = int(offset) + int(count)`, stored back as a string.  Python's
`int` raises on `None`; the `ensure_str` glue marks that theorems only apply
this to tokens whose `offset`/`count` are digit strings. -/
def plain_incr_offset (t : ResumptionToken) : ResumptionToken :=
  { t with
    offset := some (natToPyStr (pyInt (ensure_str t.offset) + pyInt (ensure_str t.count))) }

/-- Translation of `PlainResumptionToken.next` (entities.py:356). -/
def plain_next (t : ResumptionToken) (resources : List Unit) : Option ResumptionToken :=
  if has_more_resources resources (ensure_str t.count) then some (plain_incr_offset t)
  else none

/-- State of `oaipmh/entities.py`'s `ChunkedResumptionToken`: the six shared
attributes plus the `chunk_size` set by `_post_init` (default 3, the number
of months per chunk). -/
structure ChunkedResumptionToken where
  set : Option PyStr
  from_ : Option PyStr
  until_ : Option PyStr
  offset : Option PyStr
  count : Option PyStr
  metadataPfx : Option PyStr
  chunk_size : Nat
deriving DecidableEq

/-- Translation of `ChunkedResumptionToken.is_first_page` (entities.py:240):
`self.offset == '%s(0)' % self.from_`.  Python's `'%s' % None` renders the
string `"None"`, which the model reproduces. -/
def ChunkedResumptionToken.is_first_page (t : ChunkedResumptionToken) : Bool :=
  let fstr := match t.from_ with
    | some s => s
    | none => pys "None"
  decide (t.offset = some (fstr ++ pys "(0)"))

/-- Translation of `ChunkedResumptionToken.query_offset` (entities.py:259):
`int(self.offset[self.offset.index('(') + 1 : -1])`, the in-chunk skip. -/
def ChunkedResumptionToken.query_offset (t : ChunkedResumptionToken) : Nat :=
  let o := ensure_str t.offset
  let i := pyIndexOf '(' o + 1
  pyInt ((o.drop i).take (o.length - 1 - i))

/-- Translation of `ChunkedResumptionToken.query_from` (entities.py:264):
`self.offset[0:10]`, the chunk's reference date. -/
def ChunkedResumptionToken.query_from (t : ChunkedResumptionToken) : PyStr :=
  (ensure_str t.offset).take 10

/-- Translation of `ChunkedResumptionToken._until_month` (entities.py:251):
`(int(ref_date[5:7]) + chunk_size) - 1`, clamped to 12.  Computed in `Int`
exactly as Python does (the subtraction may notionally go below zero). -/
def ChunkedResumptionToken.until_month (t : ChunkedResumptionToken) : Int :=
  let m := pyInt ((t.query_from.drop 5).take 2)
  let um : Int := (m : Int) + (t.chunk_size : Int) - 1
  if um > 12 then 12 else um

/-- Leap-year test matching Python's `calendar` module. -/
def leapYear (y : Nat) : Bool := (y % 4 == 0 && y % 100 != 0) || y % 400 == 0

/-- Translation of `utils.lastdayofmonth` (utils.py:31).  The original raises
`ValueError` for a month outside 1..12; the model returns 0 there, a case
kept out of every theorem's domain by well-formedness hypotheses. -/
def lastdayofmonth (year : Nat) (month : Int) : Nat :=
  if month = 1 then 31
  else if month = 2 then (if leapYear year then 29 else 28)
  else if month = 3 then 31
  else if month = 4 then 30
  else if month = 5 then 31
  else if month = 6 then 30
  else if month = 7 then 31
  else if month = 8 then 31
  else if month = 9 then 30
  else if month = 10 then 31
  else if month = 11 then 30
  else if month = 12 then 31
  else 0

/-- Translation of `ChunkedResumptionToken.query_until` (entities.py:269):
build `'%s-%s-%s' % (ref_date[0:4], until_month, until_month_lastday)` (note
that `until_month` is interpolated without zero padding) and return the
request's upper bound when `self.until <= until` as Python strings.  A `None`
upper bound would make Python's `<=` raise `TypeError`; theorems keep `until_`
a string. -/
def ChunkedResumptionToken.query_until (t : ChunkedResumptionToken) : PyStr :=
  let ref := t.query_from
  let um := t.until_month
  let ld := lastdayofmonth (pyInt (ref.take 4)) um
  let untilStr := ref.take 4 ++ '-' :: intToPyStr um ++ '-' :: natToPyStr ld
  if pyStrLe (ensure_str t.until_) untilStr then ensure_str t.until_ else untilStr

/-- Translation of `ChunkedResumptionToken._incr_offset_size`
(entities.py:284): advance the in-chunk skip by `int(count)` and rebuild the
offset as `'%s(%s)' % (query_from, new_offset)`.  The rebuild goes through
`self.__class__(**self._asdict())` and `_asdict` only carries the six shared
attributes, so the new instance's `chunk_size` is the `_post_init` default 3
regardless of the old one. -/
def ChunkedResumptionToken.incr_offset_size (t : ChunkedResumptionToken) : ChunkedResumptionToken :=
  { t with
    offset := some (t.query_from ++ '(' ::
      natToPyStr (t.query_offset + pyInt (ensure_str t.count)) ++ [')'])
    chunk_size := 3 }

/-- Calendar date triple, the meaning of a `YYYY-MM-DD`-like string. -/
structure PyDate where
  year : Nat
  month : Nat
  day : Nat
deriving DecidableEq

/-- Translation of `utils.parse_date` (utils.py:6), which tries the formats
`%Y-%m-%d`, `%Y-%m`, `%Y` in order; `strptime` defaults a missing month or
day to 1 and accepts one- or two-digit month/day fields.  Inputs matching no
format make the original raise `ValueError`; the model returns the zero date
there, outside every theorem's domain. -/
def parse_date (l : PyStr) : PyDate :=
  match pySplit '-' l with
  | [y] => ⟨pyInt y, 1, 1⟩
  | [y, m] => ⟨pyInt y, pyInt m, 1⟩
  | [y, m, d] => ⟨pyInt y, pyInt m, pyInt d⟩
  | _ => ⟨0, 0, 0⟩

/-- Successor day of a valid calendar date: the effect of Python's
`date + timedelta(days=1)`. -/
def nextDay (d : PyDate) : PyDate :=
  if d.day < lastdayofmonth d.year (d.month : Int) then ⟨d.year, d.month, d.day + 1⟩
  else if d.month < 12 then ⟨d.year, d.month + 1, 1⟩
  else ⟨d.year + 1, 1, 1⟩

/-- Two-digit zero padding of `strftime('%m')` / `strftime('%d')`. -/
def pad2 (n : Nat) : PyStr := if n < 10 then '0' :: natToPyStr n else natToPyStr n

/-- Four-digit zero padding of `strftime('%Y')`. -/
def pad4 (n : Nat) : PyStr :=
  if n < 10 then pys "000" ++ natToPyStr n
  else if n < 100 then pys "00" ++ natToPyStr n
  else if n < 1000 then '0' :: natToPyStr n
  else natToPyStr n

/-- Python `date.strftime('%Y-%m-%d')`. -/
def formatDate (d : PyDate) : PyStr := pad4 d.year ++ '-' :: pad2 d.month ++ '-' :: pad2 d.day

/-- Translation of `ChunkedResumptionToken._incr_offset_from`
(entities.py:292): roll the chunk over to the day after `query_until`,
resetting the in-chunk skip to zero.  As with `incr_offset_size`, the rebuilt
instance gets the default `chunk_size` 3. -/
def ChunkedResumptionToken.incr_offset_from (t : ChunkedResumptionToken) : ChunkedResumptionToken :=
  { t with
    offset := some (formatDate (nextDay (parse_date t.query_until)) ++ pys "(0)")
    chunk_size := 3 }

/-- Translation of `ChunkedResumptionToken._has_more_search_space`
(entities.py:302): `self.query_until() < self.until`. -/
def ChunkedResumptionToken.has_more_search_space (t : ChunkedResumptionToken) : Bool :=
  pyStrLt t.query_until (ensure_str t.until_)

/-- Translation of `ChunkedResumptionToken.next` (entities.py:305). -/
def ChunkedResumptionToken.next (t : ChunkedResumptionToken) (resources : List Unit) :
    Option ChunkedResumptionToken :=
  if has_more_resources resources (ensure_str t.count) then some t.incr_offset_size
  else if t.has_more_search_space then some t.incr_offset_from
  else none

/-- Exception classes of the program that the embedded fragments can raise:
the five protocol errors of `oaipmh/exceptions.py` plus
`datastores.DoesNotExistError`, which is a distinct class. -/
inductive OaiError where
  | badArgument
  | badResumptionToken
  | cannotDisseminateFormat
  | idDoesNotExist
  | noRecordsMatch
  | doesNotExist
deriving DecidableEq

/-- Python truthiness of an optional string: `None` and `''` are falsy. -/
def truthyStr : Option PyStr → Bool
  | none => false
  | some s => !s.isEmpty

/-- Translation of `RecordsResultPage._ensure_datestamps_are_valid`
(repository.py:570): granularity check of truthy `from_`/`until` and the
range check `from_ > until`, each raising `BadArgumentError`. -/
def ensure_datestamps_are_valid (t : ChunkedResumptionToken) (gval : PyStr → Bool) :
    Option OaiError :=
  if truthyStr t.from_ && !gval (ensure_str t.from_) then some .badArgument
  else if truthyStr t.until_ && !gval (ensure_str t.until_) then some .badArgument
  else if (truthyStr t.from_ && truthyStr t.until_)
      && pyStrLt (ensure_str t.until_) (ensure_str t.from_) then some .badArgument
  else none

/-- Translation of `RecordsResultPage.data` (repository.py:598) with the
data-source reply passed in as `queried` (the `ds.list` call is the external
collaborator): after datestamp validation, raise `NoRecordsMatchError` when
the current token is a first page and the result set is empty, otherwise
return the queried resources. -/
def records_page_data (t : ChunkedResumptionToken) (gval : PyStr → Bool)
    (queried : List Unit) : Except OaiError (List Unit) :=
  match ensure_datestamps_are_valid t gval with
  | some e => .error e
  | none =>
    if t.is_first_page && queried.isEmpty then .error .noRecordsMatch
    else .ok queried

/-- Journal record of the data-source layer: the `Journal` namedtuple of
`oaipmh/articlemeta.py:25` (`title`, `lead_issn`). -/
structure Journal where
  title : PyStr
  lead_issn : PyStr
deriving DecidableEq

/-- Named collection; the `Set` namedtuple (entities.py:68, also sets.py:22),
called `OaiSet` here to avoid the Lean name `Set`. -/
structure OaiSet where
  setSpec : PyStr
  setName : PyStr
deriving DecidableEq

/-- Filter view restricting queries to one journal: the class
`ArticleMetaFilteredView` of `oaipmh/articlemeta.py:275`.  Its only state is
`self.term = json.dumps(dict(term))`, and every construction site passes the
one-key dict `{'code_title': value}`, on which `json.dumps` is injective in
`value`; the model therefore carries that value directly. -/
structure ArticleMetaFilteredView where
  code_title : PyStr
deriving DecidableEq

/-- Translation of `map_journal_to_set` (articlemeta.py:385, identical to
sets.py:85). -/
def map_journal_to_set (j : Journal) : OaiSet :=
  { setSpec := j.lead_issn, setName := j.title }

/-- Translation of `get_view_for_journal_set` (articlemeta.py:391, identical
to sets.py:91): builds `ArticleMetaFilteredView({'code_title': setSpec})`. -/
def get_view_for_journal_set (s : OaiSet) : ArticleMetaFilteredView :=
  { code_title := s.setSpec }

/-- Translation of `ArticleMeta.get_journal` (articlemeta.py:311): query the
external articlemeta client for the journal; a `None` reply raises
`DoesNotExistError`, otherwise the reply is mapped by
`journal_from_articlemeta` (articlemeta.py:254).  The client call and the
field mapping are the external-collaborator boundary, modelled together as
the function `client_journal` returning the already-mapped record. -/
def ArticleMeta_get_journal (client_journal : PyStr → Option Journal)
    (issn : PyStr) : Except OaiError Journal :=
  match client_journal issn with
  | none => .error .doesNotExist
  | some j => .ok j

/-- Translation of `get_set_from_journal` (articlemeta.py:378, identical to
sets.py:78): `map_journal_to_set(ds.get_journal(issn))`, letting the
`DoesNotExistError` of `get_journal` propagate. -/
def get_set_from_journal (ds_get_journal : PyStr → Except OaiError Journal)
    (issn : PyStr) : Except OaiError OaiSet :=
  (ds_get_journal issn).map map_journal_to_set

/-- Association-list lookup standing for the ordered `self.sets` dict of
`ArticleMetaSetsRegistry` (articlemeta.py:329), keyed by `setSpec`; only the
`view` half of each stored `(metadata, view)` pair matters to `get_view`. -/
def assocLookup : List (PyStr × ArticleMetaFilteredView) → PyStr →
    Option ArticleMetaFilteredView
  | [], _ => none
  | (k, v) :: rest, key => if k = key then some v else assocLookup rest key

/-- Translation of `ArticleMetaSetsRegistry.get_view` (articlemeta.py:346),
the registry wired into the application by `get_setsregistry`
(oaipmh/__init__.py:114): static lookup first; on `KeyError` synthesize the
journal set, and catch the data source's `DoesNotExistError`, returning
`None` for an unknown journal. -/
def ArticleMetaSetsRegistry_get_view (sets : List (PyStr × ArticleMetaFilteredView))
    (ds_get_journal : PyStr → Except OaiError Journal) (setspec : PyStr) :
    Except OaiError (Option ArticleMetaFilteredView) :=
  match assocLookup sets setspec with
  | some view => .ok (some view)
  | none =>
    match get_set_from_journal ds_get_journal setspec with
    | .ok s => .ok (some (get_view_for_journal_set s))
    | .error .doesNotExist => .ok none
    | .error e => .error e

/-- Translation of `RecordsResultPage._get_query_view` (repository.py:555)
over the wired registry: no set on the token means no view; otherwise
consult the registry's `get_view` and raise `BadArgumentError` when it
returned `None`. -/
def get_query_view (sets : List (PyStr × ArticleMetaFilteredView))
    (ds_get_journal : PyStr → Except OaiError Journal) (t : ChunkedResumptionToken) :
    Except OaiError (Option ArticleMetaFilteredView) :=
  if truthyStr t.set then
    match ArticleMetaSetsRegistry_get_view sets ds_get_journal (ensure_str t.set) with
    | .error e => .error e
    | .ok none => .error .badArgument
    | .ok (some v) => .ok (some v)
  else .ok none

/-- Which exceptions `Repository.handle_request` (repository.py:326) catches
and turns into an OAI-PMH error document: the five protocol errors.  A
`datastores.DoesNotExistError` reaching the dispatcher is uncaught. -/
def dispatcher_catches : OaiError → Bool
  | .badArgument => true
  | .idDoesNotExist => true
  | .badResumptionToken => true
  | .noRecordsMatch => true
  | .cannotDisseminateFormat => true
  | .doesNotExist => false

/-- Structured request of `entities.OAIRequest` (all seven attributes
optional strings; `until_`/`metadataPfx` renamed as for the token). -/
structure OAIRequest where
  verb : Option PyStr
  identifier : Option PyStr
  metadataPfx : Option PyStr
  set : Option PyStr
  resumptionToken : Option PyStr
  from_ : Option PyStr
  until_ : Option PyStr
deriving DecidableEq

/-- Membership of an argument name in a detected-argument list (Python's
`in` on a set of strings). -/
def argMem (args : List PyStr) (x : PyStr) : Bool := args.any (fun y => decide (y = x))

/-- Detected-argument names for given truthiness flags, in the order
`check_request_args` produces them (`asdict` of the namedtuple with
underscores stripped, keeping keys whose value is truthy). -/
def argsFor (bverb bident bmp bset brt bfrom buntil : Bool) : List PyStr :=
  (if bverb then [pys "verb"] else []) ++
  (if bident then [pys "identifier"] else []) ++
  (if bmp then [pys "metadataPrefix"] else []) ++
  (if bset then [pys "set"] else []) ++
  (if brt then [pys "resumptionToken"] else []) ++
  (if bfrom then [pys "from"] else []) ++
  (if buntil then [pys "until"] else [])

/-- Translation of the `detected_args` computation inside
`check_request_args.__call__` (repository.py:199): the names of the
request's truthy attributes. -/
def detected_args (r : OAIRequest) : List PyStr :=
  argsFor (truthyStr r.verb) (truthyStr r.identifier) (truthyStr r.metadataPfx)
    (truthyStr r.set) (truthyStr r.resumptionToken) (truthyStr r.from_)
    (truthyStr r.until_)

/-- Translation of `check_listrecords_args` (repository.py:214). -/
def check_listrecords_args (args : List PyStr) : Bool :=
  if !argMem args (pys "verb") then false
  else if argMem args (pys "resumptionToken") then
    !(argMem args (pys "from") || argMem args (pys "until")
      || argMem args (pys "set") || argMem args (pys "metadataPrefix"))
  else argMem args (pys "metadataPrefix")

/-- Translation of `check_listsets_args` (repository.py:226). -/
def check_listsets_args (args : List PyStr) : Bool :=
  if !argMem args (pys "verb") then false
  else if argMem args (pys "resumptionToken") then
    !(argMem args (pys "from") || argMem args (pys "until") || argMem args (pys "set"))
  else !argMem args (pys "metadataPrefix")

/-- Python `s.split(sep, 1)` expressed as the optional first split point. -/
def splitFirst (sep : Char) : PyStr → Option (PyStr × PyStr)
  | [] => none
  | c :: cs =>
    if c = sep then some ([], cs)
    else (splitFirst sep cs).map (fun p => (c :: p.1, p.2))

/-- Model of the standard library's `urllib.parse.parse_qsl(qs)` with its
default arguments (`keep_blank_values=False`, `strict_parsing=False`): split
the query string on `&`, split each field at its first `=`, and drop fields
with no `=` or an empty value.  Percent-decoding and the plus-to-space rule
are not modelled; no input in this development uses them. -/
def parse_qsl (qs : PyStr) : List (PyStr × PyStr) :=
  (pySplit '&' qs).filterMap fun field =>
    match splitFirst '=' field with
    | none => none
    | some (n, v) => if v.isEmpty then none else some (n, v)

/-- Fold step grouping one name/value pair into the multi-map that
`parse_qs` returns (insertion-ordered dict of value lists). -/
def qsAddPair (acc : List (PyStr × List PyStr)) (p : PyStr × PyStr) :
    List (PyStr × List PyStr) :=
  if acc.any (fun q => decide (q.1 = p.1)) then
    acc.map (fun q => if q.1 = p.1 then (q.1, q.2 ++ [p.2]) else q)
  else acc ++ [(p.1, [p.2])]

/-- Model of `urllib.parse.parse_qs(qs)`: the grouped form of `parse_qsl`. -/
def parse_qs (qs : PyStr) : List (PyStr × List PyStr) :=
  (parse_qsl qs).foldl qsAddPair []

/-- The legal argument names (repository.py:33, `OAIPMH_LEGAL_ARGS`). -/
def OAIPMH_LEGAL_ARGS : List PyStr :=
  [pys "verb", pys "identifier", pys "metadataPrefix", pys "set",
    pys "resumptionToken", pys "from", pys "until"]

/-- Translation of `has_illegal_args` (repository.py:257). -/
def has_illegal_args (parsed : List (PyStr × List PyStr)) : Bool :=
  parsed.any (fun q => !(OAIPMH_LEGAL_ARGS.any (fun a => decide (a = q.1))))

/-- Translation of `has_repeated_args` (repository.py:264). -/
def has_repeated_args (parsed : List (PyStr × List PyStr)) : Bool :=
  parsed.any (fun q => q.2.length > 1)

/-- Lookup in the parsed query-string multi-map. -/
def qsLookup : List (PyStr × List PyStr) → PyStr → Option (List PyStr)
  | [], _ => none
  | (k, vs) :: rest, key => if k = key then some vs else qsLookup rest key

/-- Translation of `get_or_default` (repository.py:247): first value of the
key, or `None`. -/
def get_or_default (parsed : List (PyStr × List PyStr)) (key : PyStr) : Option PyStr :=
  match qsLookup parsed key with
  | none => none
  | some vs => vs.head?

/-- Translation of `oairequest_from_querystring` (repository.py:271). -/
def oairequest_from_querystring (parsed : List (PyStr × List PyStr)) : OAIRequest :=
  { verb := get_or_default parsed (pys "verb")
    identifier := get_or_default parsed (pys "identifier")
    metadataPfx := get_or_default parsed (pys "metadataPrefix")
    set := get_or_default parsed (pys "set")
    resumptionToken := get_or_default parsed (pys "resumptionToken")
    from_ := get_or_default parsed (pys "from")
    until_ := get_or_default parsed (pys "until") }

/-- Concrete plain token used to exercise `plain_next` (offset 0, count 2). -/
def examplePlainToken : ResumptionToken :=
  { set := some [], from_ := some (pys "1998-01-01"), until_ := some (pys "1998-12-31"),
    offset := some (pys "0"), count := some (pys "2"), metadataPfx := some (pys "oai_dc") }

/-- Concrete chunked token used to exercise `ChunkedResumptionToken.next`
(in-chunk skip 4, count 2). -/
def exampleChunkToken : ChunkedResumptionToken :=
  { set := some [], from_ := some (pys "1998-01-01"), until_ := some (pys "1998-12-31"),
    offset := some (pys "1998-01-01(4)"), count := some (pys "2"),
    metadataPfx := some (pys "oai_dc"), chunk_size := 3 }

/-- Concrete token whose `set` field contains a colon. -/
def colonSetToken : ResumptionToken :=
  { set := some (pys "a:b"), from_ := none, until_ := none, offset := none,
    count := none, metadataPfx := none }

/-- Concrete colon-free token with all six fields present. -/
def colonFreeToken : ResumptionToken :=
  { set := some (pys "foo"), from_ := some (pys "1998-01-01"),
    until_ := some (pys "1998-12-31"), offset := some (pys "100"),
    count := some (pys "1000"), metadataPfx := some (pys "oai_dc") }

/-- Request carrying exactly `{verb, resumptionToken, from}` (truthy). -/
def reqVerbTokenFrom : OAIRequest :=
  { verb := some (pys "ListRecords"), identifier := none, metadataPfx := none,
    set := none, resumptionToken := some (pys ":::1998-01-01(0):10:oai_dc"),
    from_ := some (pys "1998-01-01"), until_ := none }

/-- Request carrying exactly `{verb, resumptionToken}` (truthy). -/
def reqVerbToken : OAIRequest :=
  { verb := some (pys "ListRecords"), identifier := none, metadataPfx := none,
    set := none, resumptionToken := some (pys ":::1998-01-01(0):10:oai_dc"),
    from_ := none, until_ := none }

/-- Request carrying exactly `{verb, metadataPrefix}` (truthy). -/
def reqVerbPrefix : OAIRequest :=
  { verb := some (pys "ListRecords"), identifier := none,
    metadataPfx := some (pys "oai_dc"), set := none, resumptionToken := none,
    from_ := none, until_ := none }

/-- Request carrying exactly `{verb}` (truthy). -/
def reqVerbOnly : OAIRequest :=
  { verb := some (pys "ListRecords"), identifier := none, metadataPfx := none,
    set := none, resumptionToken := none, from_ := none, until_ := none }

/-- ListSets request carrying exactly `{verb, from}` (truthy). -/
def reqListSetsFrom : OAIRequest :=
  { verb := some (pys "ListSets"), identifier := none, metadataPfx := none,
    set := none, resumptionToken := none, from_ := some (pys "2017-01-01"),
    until_ := none }

/-- ListSets request carrying exactly `{verb, resumptionToken, metadataPrefix}`. -/
def reqListSetsTokenPrefix : OAIRequest :=
  { verb := some (pys "ListSets"), identifier := none,
    metadataPfx := some (pys "oai_dc"), set := none,
    resumptionToken := some (pys ":::0:10:"), from_ := none, until_ := none }

/-- Chunked token whose `set` names a journal unknown to the data source. -/
def unknownSetToken : ChunkedResumptionToken :=
  { set := some (pys "0000-0000"), from_ := some (pys "1998-01-01"),
    until_ := some (pys "1998-12-31"), offset := some (pys "1998-01-01(0)"),
    count := some (pys "10"), metadataPfx := some (pys "oai_dc"), chunk_size := 3 }

/-- Non-first-page chunked token with unexplored date range before its upper
bound (chunk of August–October 1998, bound December 1998). -/
def nonFirstPageToken : ChunkedResumptionToken :=
  { set := some [], from_ := some (pys "1998-08-01"), until_ := some (pys "1998-12-31"),
    offset := some (pys "1998-08-01(7)"), count := some (pys "2"),
    metadataPfx := some (pys "oai_dc"), chunk_size := 3 }

/-- Outcome of the dispatch prefix of `Repository.handle_request`
(repository.py:326): immediate `badArgument`, `badVerb`, or dispatch to the
named verb handler. -/
inductive Route where
  | badArgument
  | badVerb
  | dispatch (verb : PyStr)
deriving DecidableEq

/-- The six verb names of the `Repository.verbs` table (repository.py:301). -/
def VERBS : List PyStr :=
  [pys "Identify", pys "GetRecord", pys "ListRecords", pys "ListIdentifiers",
    pys "ListMetadataFormats", pys "ListSets"]

/-- Dispatch prefix of `Repository.handle_request` (repository.py:326):
parse the query string, reject illegal or repeated arguments, then look the
verb up in the handler table (a miss, including a missing verb, is
`badVerb`). -/
def handle_request_route (qs : PyStr) : Route :=
  let parsed := parse_qs qs
  let r := oairequest_from_querystring parsed
  if has_illegal_args parsed || has_repeated_args parsed then .badArgument
  else
    match r.verb with
    | none => .badVerb
    | some v => if VERBS.any (fun w => decide (w = v)) then .dispatch v else .badVerb

/-- Well-formed `YYYY-MM-DD` date string: ten characters, digits in the
year/month/day positions, dashes between, month 01..12, day 01..31. -/
def wfDate : PyStr → Bool
  | [y1, y2, y3, y4, s1, m1, m2, s2, d1, d2] =>
    allDigitsB [y1, y2, y3, y4] && decide (s1 = '-') && allDigitsB [m1, m2]
      && decide (s2 = '-') && allDigitsB [d1, d2]
      && decide (1 ≤ pyInt [m1, m2]) && decide (pyInt [m1, m2] ≤ 12)
      && decide (1 ≤ pyInt [d1, d2]) && decide (pyInt [d1, d2] ≤ 31)
  | _ => false

/-- Calendar order on date triples (year, then month, then day). -/
def dateLe (a b : PyDate) : Prop :=
  a.year < b.year ∨ (a.year = b.year ∧
    (a.month < b.month ∨ (a.month = b.month ∧ a.day ≤ b.day)))

instance (a b : PyDate) : Decidable (dateLe a b) := by
  unfold dateLe
  infer_instance

/-- The nominal chunk-end string built inside `query_until` before clipping:
`'%s-%s-%s' % (ref_date[0:4], until_month, until_month_lastday)`. -/
def nominal_until (t : ChunkedResumptionToken) : PyStr :=
  t.query_from.take 4 ++ '-' :: intToPyStr t.until_month ++ '-' ::
    natToPyStr (lastdayofmonth (pyInt (t.query_from.take 4)) t.until_month)

/-- Chunked token whose nominal chunk end (December 1998) precedes the upper
bound (June 1999). -/
def novemberChunkToken : ChunkedResumptionToken :=
  { set := some [], from_ := some (pys "1998-11-01"), until_ := some (pys "1999-06-30"),
    offset := some (pys "1998-11-01(0)"), count := some (pys "100"),
    metadataPfx := some (pys "oai_dc"), chunk_size := 3 }

/-- Chunked token starting mid-November, used to exercise the year clamp. -/
def novemberClampToken : ChunkedResumptionToken :=
  { set := some [], from_ := some (pys "2001-11-15"), until_ := some (pys "2002-03-31"),
    offset := some (pys "2001-11-15(0)"), count := some (pys "100"),
    metadataPfx := some (pys "oai_dc"), chunk_size := 3 }

/-! ## Helper lemmas -/

theorem pySplit_cons_sep (sep : Char) (cs : PyStr) :
    pySplit sep (sep :: cs) = [] :: pySplit sep cs := by
  simp [pySplit]

theorem pySplit_cons_ne (sep c : Char) (cs : PyStr) (x : PyStr) (xs : List PyStr)
    (h : ¬(c = sep)) (hh : pySplit sep cs = x :: xs) :
    pySplit sep (c :: cs) = (c :: x) :: xs := by
  simp [pySplit, h, hh]

theorem pySplit_ne_nil (sep : Char) (l : PyStr) : pySplit sep l ≠ [] := by
  cases l with
  | nil => simp [pySplit]
  | cons c cs =>
    by_cases h : c = sep
    · subst h
      rw [pySplit_cons_sep]
      simp
    · rcases hh : pySplit sep cs with _ | ⟨x, xs⟩
      · simp [pySplit, h, hh]
      · rw [pySplit_cons_ne sep c cs x xs h hh]
        simp

theorem pySplit_nosep (sep : Char) (l : PyStr) (h : sep ∉ l) : pySplit sep l = [l] := by
  induction l with
  | nil => rfl
  | cons c cs ih =>
    have hc : ¬(c = sep) := fun e => h (e ▸ List.mem_cons_self c cs)
    have hcs : sep ∉ cs := fun m => h (List.mem_cons_of_mem c m)
    rw [pySplit_cons_ne sep c cs cs [] hc (ih hcs)]

theorem pySplit_append (sep : Char) (xs ys : PyStr) :
    pySplit sep (xs ++ sep :: ys) = pySplit sep xs ++ pySplit sep ys := by
  induction xs with
  | nil => rw [List.nil_append, pySplit_cons_sep]; rfl
  | cons c cs ih =>
    by_cases h : c = sep
    · subst h
      rw [List.cons_append, pySplit_cons_sep, pySplit_cons_sep, ih]
      rfl
    · rcases hh : pySplit sep cs with _ | ⟨x, xs'⟩
      · exact absurd hh (pySplit_ne_nil sep cs)
      · have hc : pySplit sep (cs ++ sep :: ys) = x :: (xs' ++ pySplit sep ys) := by
          rw [ih, hh]; rfl
        rw [List.cons_append, pySplit_cons_ne sep c _ _ _ h hc,
          pySplit_cons_ne sep c cs x xs' h hh]
        rfl

theorem pySplit_length (sep : Char) (l : PyStr) :
    (pySplit sep l).length = l.count sep + 1 := by
  induction l with
  | nil => simp [pySplit]
  | cons c cs ih =>
    by_cases h : c = sep
    · subst h
      rw [pySplit_cons_sep]
      simp [List.count_cons, ih]
    · rcases hh : pySplit sep cs with _ | ⟨x, xs⟩
      · exact absurd hh (pySplit_ne_nil sep cs)
      · rw [pySplit_cons_ne sep c cs x xs h hh]
        have := ih
        rw [hh] at this
        simp only [List.length_cons] at this ⊢
        simp [List.count_cons, h]
        omega

theorem digitChar_toNat (d : Nat) (h : d < 10) : (digitChar d).toNat = 48 + d := by
  interval_cases d <;> rfl

theorem pyInt_append_char (l : PyStr) (c : Char) :
    pyInt (l ++ [c]) = 10 * pyInt l + (c.toNat - 48) := by
  unfold pyInt
  rw [List.foldl_append]
  rfl

theorem pyInt_natToPyStrGo (fuel n : Nat) (h : n < fuel) :
    pyInt (natToPyStrGo fuel n) = n := by
  induction fuel generalizing n with
  | zero => omega
  | succ f ih =>
    unfold natToPyStrGo
    by_cases h10 : n < 10
    · simp only [h10, if_true]
      have hv : pyInt [digitChar n] = 10 * 0 + ((digitChar n).toNat - 48) := rfl
      rw [hv, digitChar_toNat n h10]
      omega
    · simp only [h10, if_false]
      rw [pyInt_append_char, ih (n / 10) (by omega)]
      have := digitChar_toNat (n % 10) (by omega)
      omega

theorem pyInt_natToPyStr (n : Nat) : pyInt (natToPyStr n) = n := by
  unfold natToPyStr
  exact pyInt_natToPyStrGo (n + 1) n (by omega)

theorem pyIndexOf_append (c : Char) (a b : PyStr) (h : c ∉ a) :
    pyIndexOf c (a ++ c :: b) = a.length := by
  induction a with
  | nil => simp [pyIndexOf]
  | cons x xs ih =>
    have hx : ¬(x = c) := fun e => h (e ▸ List.mem_cons_self x xs)
    have hxs : c ∉ xs := fun m => h (List.mem_cons_of_mem x m)
    simp [pyIndexOf, hx, ih hxs]

/-! ## Claim C2 -/

/-- C2 (corrected), counterexample: a token whose `set` field contains a
colon breaks both the field-by-field round-trip (taken as strings) and the
encode–decode–encode stability that the claim asserts for arbitrary
string-valued fields. -/
theorem token_roundtrip_counterexample :
    (ResumptionToken.decode colonSetToken.encode).toStrings ≠ colonSetToken.toStrings
    ∧ (ResumptionToken.decode colonSetToken.encode).encode ≠ colonSetToken.encode := by
  constructor <;> decide

/-- C2 (amended): for every token whose six fields, taken as strings, are
colon-free, decoding the encoded form restores every field as a string
(`None` and the empty string coinciding), and the encode–decode–encode
round-trip is stable. -/
theorem token_roundtrip_of_colon_free (t : ResumptionToken)
    (h : ∀ s ∈ t.toStrings, (':' : Char) ∉ s) :
    ResumptionToken.decode t.encode =
      { set := some (ensure_str t.set), from_ := some (ensure_str t.from_),
        until_ := some (ensure_str t.until_), offset := some (ensure_str t.offset),
        count := some (ensure_str t.count), metadataPfx := some (ensure_str t.metadataPfx) }
    ∧ (ResumptionToken.decode t.encode).toStrings = t.toStrings
    ∧ (ResumptionToken.decode t.encode).encode = t.encode := by
  have h1 : (':' : Char) ∉ ensure_str t.set := h _ (by simp [ResumptionToken.toStrings])
  have h2 : (':' : Char) ∉ ensure_str t.from_ := h _ (by simp [ResumptionToken.toStrings])
  have h3 : (':' : Char) ∉ ensure_str t.until_ := h _ (by simp [ResumptionToken.toStrings])
  have h4 : (':' : Char) ∉ ensure_str t.offset := h _ (by simp [ResumptionToken.toStrings])
  have h5 : (':' : Char) ∉ ensure_str t.count := h _ (by simp [ResumptionToken.toStrings])
  have h6 : (':' : Char) ∉ ensure_str t.metadataPfx := h _ (by simp [ResumptionToken.toStrings])
  have henc : t.encode = ensure_str t.set ++ ':' :: (ensure_str t.from_ ++ ':' ::
      (ensure_str t.until_ ++ ':' :: (ensure_str t.offset ++ ':' ::
      (ensure_str t.count ++ ':' :: ensure_str t.metadataPfx)))) := rfl
  have hsplit : pySplit ':' t.encode =
      [ensure_str t.set, ensure_str t.from_, ensure_str t.until_,
        ensure_str t.offset, ensure_str t.count, ensure_str t.metadataPfx] := by
    rw [henc, pySplit_append, pySplit_nosep _ _ h1, pySplit_append, pySplit_nosep _ _ h2,
      pySplit_append, pySplit_nosep _ _ h3, pySplit_append, pySplit_nosep _ _ h4,
      pySplit_append, pySplit_nosep _ _ h5, pySplit_nosep _ _ h6]
    rfl
  have hdec : ResumptionToken.decode t.encode =
      { set := some (ensure_str t.set), from_ := some (ensure_str t.from_),
        until_ := some (ensure_str t.until_), offset := some (ensure_str t.offset),
        count := some (ensure_str t.count), metadataPfx := some (ensure_str t.metadataPfx) } := by
    unfold ResumptionToken.decode
    rw [hsplit]
    rfl
  refine ⟨hdec, ?_, ?_⟩
  · rw [hdec]
    rfl
  · rw [hdec]
    rfl

/-- C2 witness: the colon-free example token satisfies the hypotheses and
the round-trip equations of the amended claim. -/
theorem token_roundtrip_of_colon_free_witness :
    (ResumptionToken.decode colonFreeToken.encode).toStrings = colonFreeToken.toStrings
    ∧ (ResumptionToken.decode colonFreeToken.encode).encode = colonFreeToken.encode := by
  have h := token_roundtrip_of_colon_free colonFreeToken (by decide)
  exact ⟨h.2.1, h.2.2⟩

/-! ## Claim C8 -/

/-- C8 (corrected), counterexample: decoding a token string with no colon at
all leaves the missing trailing fields `None`, not the empty string the
claim asserts (the third field here). -/
theorem decode_short_token_counterexample :
    (ResumptionToken.decode (pys "a")).until_ = none
    ∧ (ResumptionToken.decode (pys "a")).until_ ≠ some (pys "") := by
  constructor <;> decide

/-- C8 (amended): for every token string containing fewer than five colon
separators, each field beyond the produced positional values is `None`
(which `encode` later renders as the empty string). -/
theorem decode_missing_trailing_fields_are_none (s : PyStr) :
    (s.count ':' < 5 → (ResumptionToken.decode s).metadataPfx = none)
    ∧ (s.count ':' < 4 → (ResumptionToken.decode s).count = none)
    ∧ (s.count ':' < 3 → (ResumptionToken.decode s).offset = none)
    ∧ (s.count ':' < 2 → (ResumptionToken.decode s).until_ = none)
    ∧ (s.count ':' < 1 → (ResumptionToken.decode s).from_ = none) := by
  have hlen := pySplit_length ':' s
  refine ⟨fun h => ?_, fun h => ?_, fun h => ?_, fun h => ?_, fun h => ?_⟩
  · show (pySplit ':' s).get? 5 = none
    exact List.get?_eq_none.mpr (by omega)
  · show (pySplit ':' s).get? 4 = none
    exact List.get?_eq_none.mpr (by omega)
  · show (pySplit ':' s).get? 3 = none
    exact List.get?_eq_none.mpr (by omega)
  · show (pySplit ':' s).get? 2 = none
    exact List.get?_eq_none.mpr (by omega)
  · show (pySplit ':' s).get? 1 = none
    exact List.get?_eq_none.mpr (by omega)

/-- C8 witness: the one-field token string `"a"` (zero colons) decodes with
all five trailing fields `None`. -/
theorem decode_missing_trailing_fields_are_none_witness :
    (ResumptionToken.decode (pys "a")).metadataPfx = none
    ∧ (ResumptionToken.decode (pys "a")).count = none
    ∧ (ResumptionToken.decode (pys "a")).offset = none := by
  have h := decode_missing_trailing_fields_are_none (pys "a")
  exact ⟨h.1 (by decide), h.2.1 (by decide), h.2.2.1 (by decide)⟩

/-! ## Claim C1 -/

theorem query_offset_of_built_offset (t : ChunkedResumptionToken) (qf : PyStr) (k : Nat)
    (hoff : t.offset = some ((qf ++ ['('] ) ++ (natToPyStr k ++ [')'])))
    (hpar : ('(' : Char) ∉ qf) :
    t.query_offset = k := by
  unfold ChunkedResumptionToken.query_offset
  rw [hoff]
  simp only [ensure_str]
  have hidx : pyIndexOf '(' ((qf ++ ['('] ) ++ (natToPyStr k ++ [')'])) = qf.length := by
    have h2 : (qf ++ ['('] ) ++ (natToPyStr k ++ [')']) =
        qf ++ '(' :: (natToPyStr k ++ [')']) := by simp
    rw [h2]
    exact pyIndexOf_append '(' _ _ hpar
  rw [hidx]
  have hdrop : List.drop (qf.length + 1) ((qf ++ ['('] ) ++ (natToPyStr k ++ [')'])) =
      natToPyStr k ++ [')'] := by
    have hl : qf.length + 1 = (qf ++ ['('] ).length := by simp
    rw [hl, List.drop_left]
  rw [hdrop]
  have hlen : ((qf ++ ['('] ) ++ (natToPyStr k ++ [')'])).length - 1 - (qf.length + 1) =
      (natToPyStr k).length := by
    simp
    omega
  rw [hlen, List.take_left, pyInt_natToPyStr]

/-- C1 (corrected), counterexample: with offset 0, count 2 and a full page,
the plain token's `next` yields offset 2 (advanced by exactly `count`), not
the offset 3 that the claim's `count + 1` arithmetic predicts. -/
theorem plain_next_counterexample :
    plain_next examplePlainToken [(), ()] =
      some { examplePlainToken with offset := some (pys "2") }
    ∧ plain_next examplePlainToken [(), ()] ≠
      some { examplePlainToken with offset := some (pys "3") } := by
  constructor <;> decide

/-- C1 (amended): on a full page (length equal to the token's count), the
plain token's `next` advances the flat offset by exactly `count` (no `+ 1`),
and the chunked token's `next` advances the in-chunk skip by exactly
`count`.  The chunked part assumes the offset's reference date carries no
parenthesis, which the date slice of a well-formed offset never does. -/
theorem next_advances_offset_by_count :
    (∀ (t : ResumptionToken) (page : List Unit),
      page.length = pyInt (ensure_str t.count) →
      plain_next t page = some (plain_incr_offset t)
      ∧ (plain_incr_offset t).offset =
          some (natToPyStr (pyInt (ensure_str t.offset) + pyInt (ensure_str t.count)))
      ∧ pyInt (ensure_str (plain_incr_offset t).offset) =
          pyInt (ensure_str t.offset) + pyInt (ensure_str t.count))
    ∧ (∀ (ct : ChunkedResumptionToken) (page : List Unit),
      page.length = pyInt (ensure_str ct.count) →
      ('(' : Char) ∉ ct.query_from →
      ct.next page = some ct.incr_offset_size
      ∧ ct.incr_offset_size.query_offset =
          ct.query_offset + pyInt (ensure_str ct.count)) := by
  constructor
  · intro t page hfull
    refine ⟨?_, rfl, ?_⟩
    · unfold plain_next has_more_resources
      simp [hfull]
    · show pyInt (natToPyStr (pyInt (ensure_str t.offset) + pyInt (ensure_str t.count))) = _
      exact pyInt_natToPyStr _
  · intro ct page hfull hpar
    constructor
    · unfold ChunkedResumptionToken.next has_more_resources
      simp [hfull]
    · have ho : ct.incr_offset_size.offset =
          some ((ct.query_from ++ ['('] ) ++
            (natToPyStr (ct.query_offset + pyInt (ensure_str ct.count)) ++ [')'])) := by
        show some (ct.query_from ++ '(' ::
            natToPyStr (ct.query_offset + pyInt (ensure_str ct.count)) ++ [')']) = _
        simp
      exact query_offset_of_built_offset ct.incr_offset_size ct.query_from _ ho hpar

/-! ## Claim C3 -/

/-- C3 (confirmed): the ListRecords argument check rejects a request whose
truthy arguments are exactly `{verb, resumptionToken, from}`, accepts
`{verb, resumptionToken}` alone, accepts `{verb, metadataPrefix}` alone, and
rejects `{verb}` alone (a `false` return makes `check_request_args` raise
`BadArgumentError`). -/
theorem listrecords_argument_exactness :
    (∀ r : OAIRequest,
      detected_args r = [pys "verb", pys "resumptionToken", pys "from"] →
      check_listrecords_args (detected_args r) = false)
    ∧ (∀ r : OAIRequest,
      detected_args r = [pys "verb", pys "resumptionToken"] →
      check_listrecords_args (detected_args r) = true)
    ∧ (∀ r : OAIRequest,
      detected_args r = [pys "verb", pys "metadataPrefix"] →
      check_listrecords_args (detected_args r) = true)
    ∧ (∀ r : OAIRequest,
      detected_args r = [pys "verb"] →
      check_listrecords_args (detected_args r) = false) := by
  refine ⟨fun r h => ?_, fun r h => ?_, fun r h => ?_, fun r h => ?_⟩ <;>
    rw [h] <;> decide

/-- C3 witness: the four argument patterns realized by concrete requests. -/
theorem listrecords_argument_exactness_witness :
    check_listrecords_args (detected_args reqVerbTokenFrom) = false
    ∧ check_listrecords_args (detected_args reqVerbToken) = true
    ∧ check_listrecords_args (detected_args reqVerbPrefix) = true
    ∧ check_listrecords_args (detected_args reqVerbOnly) = false :=
  ⟨listrecords_argument_exactness.1 reqVerbTokenFrom (by decide),
    listrecords_argument_exactness.2.1 reqVerbToken (by decide),
    listrecords_argument_exactness.2.2.1 reqVerbPrefix (by decide),
    listrecords_argument_exactness.2.2.2 reqVerbOnly (by decide)⟩

/-! ## Claim C4 -/

theorem check_listsets_args_argsFor (bverb bident bmp bset brt bfrom buntil : Bool) :
    check_listsets_args (argsFor bverb bident bmp bset brt bfrom buntil) =
      (bverb && (if brt then !(bfrom || buntil || bset) else !bmp)) := by
  cases bverb <;> cases bident <;> cases bmp <;> cases bset <;> cases brt <;>
    cases bfrom <;> cases buntil <;> decide

/-- C4 (corrected), counterexample: the ListSets argument check accepts a
request whose truthy arguments are exactly `{verb, from}` (the claim says
any request with `from` present raises `BadArgumentError`), and also accepts
`{verb, resumptionToken, metadataPrefix}` (the claim says only `{verb}` and
`{verb, resumptionToken}` are accepted). -/
theorem listsets_accepts_counterexample :
    check_listsets_args (detected_args reqListSetsFrom) = true
    ∧ check_listsets_args (detected_args reqListSetsTokenPrefix) = true := by
  constructor <;> decide

/-- C4 (amended): the ListSets argument check requires a truthy `verb`; when
`resumptionToken` is present it rejects exactly the requests where any of
`from`, `until` or `set` is present; without `resumptionToken` it rejects
exactly the requests where `metadataPrefix` is present (so `from`, `until`
or `set` without a resumption token pass the check). -/
theorem listsets_args_characterization (r : OAIRequest) :
    check_listsets_args (detected_args r) =
      (truthyStr r.verb &&
        (if truthyStr r.resumptionToken
         then !(truthyStr r.from_ || truthyStr r.until_ || truthyStr r.set)
         else !truthyStr r.metadataPfx)) := by
  unfold detected_args
  exact check_listsets_args_argsFor _ _ _ _ _ _ _

/-- C4 witness: the characterization evaluated at the `{verb, from}`
request. -/
theorem listsets_args_characterization_witness :
    check_listsets_args (detected_args reqListSetsFrom) =
      (truthyStr reqListSetsFrom.verb &&
        (if truthyStr reqListSetsFrom.resumptionToken
         then !(truthyStr reqListSetsFrom.from_ || truthyStr reqListSetsFrom.until_
            || truthyStr reqListSetsFrom.set)
         else !truthyStr reqListSetsFrom.metadataPfx)) :=
  listsets_args_characterization reqListSetsFrom

/-! ## Claim C5 -/

/-- C5 (confirmed): for every page assembly whose token carries a set name
that is neither registered in the wired sets registry nor a journal known to
the data source, resolving the view raises `BadArgumentError`
(`ArticleMetaSetsRegistry.get_view` catches the data source's
`DoesNotExistError` and returns `None`, and `_get_query_view` turns that
into the raise), and the dispatcher's except clauses catch that error and
render the badArgument document rather than letting any other exception
escape. -/
theorem unknown_set_raises_bad_argument
    (sets : List (PyStr × ArticleMetaFilteredView))
    (client_journal : PyStr → Option Journal)
    (t : ChunkedResumptionToken) (s : PyStr)
    (hset : t.set = some s) (hne : s ≠ [])
    (hstatic : assocLookup sets s = none)
    (hjournal : client_journal s = none) :
    get_query_view sets (ArticleMeta_get_journal client_journal) t =
      .error .badArgument
    ∧ dispatcher_catches .badArgument = true := by
  constructor
  · unfold get_query_view
    have ht : truthyStr t.set = true := by
      rw [hset]
      simp [truthyStr, hne]
    have he : ensure_str t.set = s := by
      rw [hset]
      rfl
    simp only [ht, if_true, he]
    unfold ArticleMetaSetsRegistry_get_view
    rw [hstatic]
    unfold get_set_from_journal ArticleMeta_get_journal
    rw [hjournal]
    rfl
  · rfl

/-- C5 witness: the empty registry and a journal-less data source with the
concrete unknown set "0000-0000". -/
theorem unknown_set_raises_bad_argument_witness :
    get_query_view [] (ArticleMeta_get_journal (fun _ => none)) unknownSetToken =
      .error .badArgument
    ∧ dispatcher_catches .badArgument = true :=
  unknown_set_raises_bad_argument [] (fun _ => none) unknownSetToken
    (pys "0000-0000") rfl (by decide) rfl rfl

/-! ## Claim C6 -/

/-- C6 (corrected), counterexample: an empty, non-first page raises no error
and yields an empty list, but — contrary to the claim's "no further
resumption token" — `next` still produces a rollover token because
unexplored date range remains before the upper bound. -/
theorem empty_nonfirst_page_rollover_counterexample :
    nonFirstPageToken.is_first_page = false
    ∧ records_page_data nonFirstPageToken (fun _ => true) [] = .ok []
    ∧ nonFirstPageToken.next [] =
        some { nonFirstPageToken with
          offset := some (pys "1998-11-01(0)"), chunk_size := 3 } := by
  refine ⟨by decide, rfl, by decide⟩

/-- C6 (amended): with valid datestamps, `RecordsResultPage.data` raises
`NoRecordsMatchError` exactly when the current token is a first-page token
and the query returned nothing; an empty non-first page raises no error and
yields the empty list, and its next resumption token is `None` exactly when
no unexplored date range remains before the upper bound (otherwise the
date-rollover token is produced). -/
theorem no_records_match_iff_first_page_empty
    (t : ChunkedResumptionToken) (gval : PyStr → Bool) (queried : List Unit)
    (hv : ensure_datestamps_are_valid t gval = none) :
    (records_page_data t gval queried = .error .noRecordsMatch ↔
      (t.is_first_page = true ∧ queried = []))
    ∧ (t.is_first_page = false →
        records_page_data t gval [] = .ok []
        ∧ (pyInt (ensure_str t.count) ≠ 0 →
            (t.next [] = none ↔ t.has_more_search_space = false))) := by
  constructor
  · unfold records_page_data
    rw [hv]
    constructor
    · intro h
      by_cases hcond : (t.is_first_page && queried.isEmpty) = true
      · have hparts := hcond
        simp only [Bool.and_eq_true] at hparts
        exact ⟨hparts.1, List.isEmpty_iff.mp hparts.2⟩
      · rw [if_neg hcond] at h
        exact Except.noConfusion h
    · rintro ⟨h1, h2⟩
      subst h2
      rw [if_pos (by simp [h1])]
  · intro hf
    constructor
    · unfold records_page_data
      rw [hv]
      simp [hf]
    · intro hc
      unfold ChunkedResumptionToken.next has_more_resources
      have hne : ((([] : List Unit)).length == pyInt (ensure_str t.count)) = false := by
        simp
        omega
      rw [hne]
      by_cases hs : t.has_more_search_space <;> simp [hs]

/-- C6 witness: the amended statement instantiated at the concrete non-first
page token with an always-true granularity validator and an empty query
result. -/
theorem no_records_match_iff_first_page_empty_witness :
    (records_page_data nonFirstPageToken (fun _ => true) [] =
        .error .noRecordsMatch ↔
      (nonFirstPageToken.is_first_page = true ∧ ([] : List Unit) = []))
    ∧ (nonFirstPageToken.is_first_page = false →
        records_page_data nonFirstPageToken (fun _ => true) [] = .ok []
        ∧ (pyInt (ensure_str nonFirstPageToken.count) ≠ 0 →
            (nonFirstPageToken.next [] = none ↔
              nonFirstPageToken.has_more_search_space = false))) :=
  no_records_match_iff_first_page_empty nonFirstPageToken (fun _ => true) [] rfl

/-! ## Claim C9 -/

theorem splitFirst_key_eq (sep : Char) (key : PyStr) (h : sep ∉ key) :
    splitFirst sep (key ++ [sep]) = some (key, []) := by
  induction key with
  | nil => simp [splitFirst]
  | cons c cs ih =>
    have hc : ¬(c = sep) := fun e => h (e ▸ List.mem_cons_self c cs)
    have hcs : sep ∉ cs := fun m => h (List.mem_cons_of_mem c m)
    simp [splitFirst, hc, ih hcs]

theorem parse_qsl_append_dropped (qs key : PyStr)
    (hamp : ('&' : Char) ∉ key) (heq : ('=' : Char) ∉ key) :
    parse_qsl (qs ++ '&' :: (key ++ [('=' : Char)])) = parse_qsl qs := by
  unfold parse_qsl
  rw [pySplit_append, List.filterMap_append]
  have hin : ('&' : Char) ∉ key ++ [('=' : Char)] := by
    intro hm
    rcases List.mem_append.mp hm with h | h
    · exact hamp h
    · simp at h
  rw [pySplit_nosep _ _ hin]
  have hone : List.filterMap
      (fun field =>
        match splitFirst '=' field with
        | none => none
        | some (n, v) => if v.isEmpty then none else some (n, v))
      [key ++ [('=' : Char)]] = ([] : List (PyStr × PyStr)) := by
    simp only [List.filterMap_cons, List.filterMap_nil, splitFirst_key_eq '=' key heq]
    simp
  rw [hone, List.append_nil]

/-- C9 (confirmed): appending a parameter with an empty value (whether an
unrecognized key or a repetition of an existing key) to any query string
changes nothing: `parse_qs` drops empty-valued parameters before
`has_illegal_args`/`has_repeated_args` run, so the parsed multi-map and the
dispatch route — and with them the whole handling, which is a function of
the parsed multi-map — are exactly those of the original query string. -/
theorem empty_valued_params_are_dropped (qs key : PyStr)
    (hamp : ('&' : Char) ∉ key) (heq : ('=' : Char) ∉ key) :
    parse_qsl (qs ++ '&' :: (key ++ [('=' : Char)])) = parse_qsl qs
    ∧ parse_qs (qs ++ '&' :: (key ++ [('=' : Char)])) = parse_qs qs
    ∧ handle_request_route (qs ++ '&' :: (key ++ [('=' : Char)])) =
        handle_request_route qs := by
  have h1 := parse_qsl_append_dropped qs key hamp heq
  have h2 : parse_qs (qs ++ '&' :: (key ++ [('=' : Char)])) = parse_qs qs := by
    unfold parse_qs
    rw [h1]
  refine ⟨h1, h2, ?_⟩
  unfold handle_request_route
  rw [h2]

/-- C9 witness: `verb=Identify&illegalarg=` (unrecognized key, empty value)
and `verb=Identify&verb=` (repeated key, empty value) both parse and route
exactly like `verb=Identify`. -/
theorem empty_valued_params_are_dropped_witness :
    (handle_request_route (pys "verb=Identify" ++ '&' ::
        (pys "illegalarg" ++ [('=' : Char)])) =
      handle_request_route (pys "verb=Identify"))
    ∧ (handle_request_route (pys "verb=Identify" ++ '&' ::
        (pys "verb" ++ [('=' : Char)])) =
      handle_request_route (pys "verb=Identify")) :=
  ⟨(empty_valued_params_are_dropped (pys "verb=Identify") (pys "illegalarg")
      (by decide) (by decide)).2.2,
    (empty_valued_params_are_dropped (pys "verb=Identify") (pys "verb")
      (by decide) (by decide)).2.2⟩

/-! ## String-comparison and digit-arithmetic lemmas for the date claims -/

theorem char_eq_of_toNat (a b : Char) (h : a.toNat = b.toNat) : a = b := by
  have hv : a.val = b.val := UInt32.toNat.inj h
  exact Char.eq_of_val_eq hv

theorem char_toNat_ne (a b : Char) (h : ¬(a = b)) : a.toNat ≠ b.toNat :=
  fun e => h (char_eq_of_toNat a b e)

theorem pyStrLt_cons_same (c : Char) (x y : PyStr) :
    pyStrLt (c :: x) (c :: y) = pyStrLt x y := by
  simp [pyStrLt]

theorem pyStrLe_cons_same (c : Char) (x y : PyStr) :
    pyStrLe (c :: x) (c :: y) = pyStrLe x y := by
  simp [pyStrLe]

theorem pyStrLt_cons_ne (c c' : Char) (x y : PyStr) (h : ¬(c = c')) :
    pyStrLt (c :: x) (c' :: y) = decide (c.toNat < c'.toNat) := by
  simp [pyStrLt, h]

theorem pyStrLe_cons_ne (c c' : Char) (x y : PyStr) (h : ¬(c = c')) :
    pyStrLe (c :: x) (c' :: y) = decide (c.toNat < c'.toNat) := by
  simp [pyStrLe, h]

theorem pyStrLe_false_lt (a b : PyStr) (h : pyStrLe a b = false) :
    pyStrLt b a = true := by
  induction a generalizing b with
  | nil => simp [pyStrLe] at h
  | cons c cs ih =>
    cases b with
    | nil => simp [pyStrLt]
    | cons c' cs' =>
      by_cases hcc : c = c'
      · subst hcc
        rw [pyStrLe_cons_same] at h
        rw [pyStrLt_cons_same]
        exact ih cs' h
      · rw [pyStrLe_cons_ne _ _ _ _ hcc] at h
        have hcc' : ¬(c' = c) := fun e => hcc e.symm
        rw [pyStrLt_cons_ne _ _ _ _ hcc']
        simp at h ⊢
        have := char_toNat_ne c c' hcc
        omega

theorem pyStrLt_append_seg (a b x y : PyStr) (hlen : a.length = b.length) :
    pyStrLt (a ++ x) (b ++ y) = if a = b then pyStrLt x y else pyStrLt a b := by
  induction a generalizing b with
  | nil =>
    cases b with
    | nil => simp
    | cons c' cs' => simp at hlen
  | cons c cs ih =>
    cases b with
    | nil => simp at hlen
    | cons c' cs' =>
      simp only [List.cons_append]
      by_cases hcc : c = c'
      · subst hcc
        rw [pyStrLt_cons_same, ih cs' (by simpa using hlen)]
        by_cases he : cs = cs' <;> simp [he, pyStrLt_cons_same]
      · have hne : ¬(c :: cs = c' :: cs') := by simp [hcc]
        rw [pyStrLt_cons_ne _ _ _ _ hcc, if_neg hne, pyStrLt_cons_ne _ _ _ _ hcc]

theorem pyStrLe_append_seg (a b x y : PyStr) (hlen : a.length = b.length) :
    pyStrLe (a ++ x) (b ++ y) = if a = b then pyStrLe x y else pyStrLt a b := by
  induction a generalizing b with
  | nil =>
    cases b with
    | nil => simp
    | cons c' cs' => simp at hlen
  | cons c cs ih =>
    cases b with
    | nil => simp at hlen
    | cons c' cs' =>
      simp only [List.cons_append]
      by_cases hcc : c = c'
      · subst hcc
        rw [pyStrLe_cons_same, ih cs' (by simpa using hlen)]
        by_cases he : cs = cs' <;>
          simp [he, pyStrLe_cons_same, pyStrLt_cons_same]
      · have hne : ¬(c :: cs = c' :: cs') := by simp [hcc]
        rw [pyStrLe_cons_ne _ _ _ _ hcc, if_neg hne, pyStrLt_cons_ne _ _ _ _ hcc]

theorem pyInt_foldl_shift (l : PyStr) (acc : Nat) :
    List.foldl (fun a c => 10 * a + (c.toNat - 48)) acc l =
      acc * 10 ^ l.length + List.foldl (fun a c => 10 * a + (c.toNat - 48)) 0 l := by
  induction l generalizing acc with
  | nil => simp
  | cons c cs ih =>
    simp only [List.foldl_cons, List.length_cons]
    rw [ih (10 * acc + (c.toNat - 48)), ih (10 * 0 + (c.toNat - 48))]
    ring

theorem pyInt_cons (c : Char) (l : PyStr) :
    pyInt (c :: l) = (c.toNat - 48) * 10 ^ l.length + pyInt l := by
  unfold pyInt
  simp only [List.foldl_cons]
  rw [pyInt_foldl_shift l (10 * 0 + (c.toNat - 48))]
  ring_nf

theorem pyInt_lt_pow (l : PyStr) (h : allDigitsB l = true) :
    pyInt l < 10 ^ l.length := by
  induction l with
  | nil => simp [pyInt]
  | cons c cs ih =>
    simp only [allDigitsB, List.all_cons, Bool.and_eq_true] at h
    have hcs : pyInt cs < 10 ^ cs.length := ih (by simp [allDigitsB, h.2])
    have hc : c.toNat ≤ 57 := by
      have := h.1
      simp [isDigitB] at this
      omega
    rw [pyInt_cons]
    have h1 : (c.toNat - 48) * 10 ^ cs.length + pyInt cs <
        (c.toNat - 48 + 1) * 10 ^ cs.length := by
      have : (c.toNat - 48 + 1) * 10 ^ cs.length =
          (c.toNat - 48) * 10 ^ cs.length + 10 ^ cs.length := by ring
      omega
    have h2 : (c.toNat - 48 + 1) * 10 ^ cs.length ≤ 10 * 10 ^ cs.length :=
      Nat.mul_le_mul_right _ (by omega)
    have h3 : (10 : Nat) * 10 ^ cs.length = 10 ^ (cs.length + 1) := by ring
    simp only [List.length_cons]
    omega

theorem head_lt_pyInt (c c' : Char) (cs cs' : PyStr)
    (hlen : cs.length = cs'.length)
    (hc : isDigitB c = true) (hc' : isDigitB c' = true)
    (hcs : allDigitsB cs = true)
    (hlt : c.toNat < c'.toNat) :
    pyInt (c :: cs) < pyInt (c' :: cs') := by
  rw [pyInt_cons, pyInt_cons, hlen]
  have hb : pyInt cs < 10 ^ cs'.length := by
    have := pyInt_lt_pow cs hcs
    rwa [hlen] at this
  simp [isDigitB] at hc hc'
  have h1 : (c.toNat - 48 + 1) * 10 ^ cs'.length ≤ (c'.toNat - 48) * 10 ^ cs'.length :=
    Nat.mul_le_mul_right _ (by omega)
  have h2 : (c.toNat - 48 + 1) * 10 ^ cs'.length =
      (c.toNat - 48) * 10 ^ cs'.length + 10 ^ cs'.length := by ring
  omega

theorem digits_lt_iff (a b : PyStr) (ha : allDigitsB a = true)
    (hb : allDigitsB b = true) (hlen : a.length = b.length) :
    (pyStrLt a b = true ↔ pyInt a < pyInt b) := by
  induction a generalizing b with
  | nil =>
    cases b with
    | nil => simp [pyStrLt, pyInt]
    | cons c' cs' => simp at hlen
  | cons c cs ih =>
    cases b with
    | nil => simp at hlen
    | cons c' cs' =>
      simp only [allDigitsB, List.all_cons, Bool.and_eq_true] at ha hb
      have hlen' : cs.length = cs'.length := by simpa using hlen
      by_cases hcc : c = c'
      · subst hcc
        rw [pyStrLt_cons_same, pyInt_cons, pyInt_cons, hlen',
          ih cs' (by simp [allDigitsB, ha.2]) (by simp [allDigitsB, hb.2]) hlen']
        omega
      · rw [pyStrLt_cons_ne _ _ _ _ hcc]
        have hvv : c.toNat ≠ c'.toNat := char_toNat_ne c c' hcc
        rcases Nat.lt_trichotomy c.toNat c'.toNat with h | h | h
        · have := head_lt_pyInt c c' cs cs' hlen' ha.1 hb.1
            (by simp [allDigitsB, ha.2]) h
          simp [h]
          omega
        · exact absurd h hvv
        · have := head_lt_pyInt c' c cs' cs hlen'.symm hb.1 ha.1
            (by simp [allDigitsB, hb.2]) h
          simp [Nat.not_lt.mpr (Nat.le_of_lt h)]
          omega

/-! ## Date-string structure lemmas -/

theorem digitChar_isDigit (d : Nat) (h : d < 10) : isDigitB (digitChar d) = true := by
  interval_cases d <;> rfl

theorem natToPyStrGo_digits (fuel n : Nat) (h : n < fuel) :
    allDigitsB (natToPyStrGo fuel n) = true := by
  induction fuel generalizing n with
  | zero => omega
  | succ f ih =>
    unfold natToPyStrGo
    by_cases h10 : n < 10
    · simp only [h10, if_true]
      simp [allDigitsB, digitChar_isDigit n h10]
    · simp only [h10, if_false]
      have h1 := ih (n / 10) (by omega)
      have h2 := digitChar_isDigit (n % 10) (by omega)
      simp [allDigitsB, List.all_append, h2] at h1 ⊢
      exact h1

theorem natToPyStr_digits (n : Nat) : allDigitsB (natToPyStr n) = true :=
  natToPyStrGo_digits (n + 1) n (by omega)

theorem natToPyStr_single (n : Nat) (h : n < 10) : natToPyStr n = [digitChar n] := by
  unfold natToPyStr natToPyStrGo
  simp [h]

theorem natToPyStr_two (n : Nat) (h10 : 10 ≤ n) (h99 : n ≤ 99) :
    natToPyStr n = [digitChar (n / 10), digitChar (n % 10)] := by
  obtain ⟨k, rfl⟩ : ∃ k, n = k + 1 := ⟨n - 1, by omega⟩
  unfold natToPyStr natToPyStrGo
  simp only [Nat.not_lt.mpr h10, if_false]
  have hdiv : (k + 1) / 10 < 10 := by omega
  have : natToPyStrGo (k + 1) ((k + 1) / 10) = [digitChar ((k + 1) / 10)] := by
    obtain ⟨j, hj⟩ : ∃ j, k = j + 1 := ⟨k - 1, by omega⟩
    rw [hj]
    unfold natToPyStrGo
    simp [show (j + 1 + 1) / 10 < 10 by omega]
  rw [this]
  rfl

theorem notin_of_allDigits (l : PyStr) (h : allDigitsB l = true) (c : Char)
    (hc : c.toNat < 48 ∨ 57 < c.toNat) : c ∉ l := by
  intro hm
  simp only [allDigitsB, List.all_eq_true] at h
  have := h c hm
  simp [isDigitB] at this
  omega

theorem dash_notin_digits (l : PyStr) (h : allDigitsB l = true) : ('-' : Char) ∉ l :=
  notin_of_allDigits l h '-' (by left; decide)

theorem paren_notin_digits (l : PyStr) (h : allDigitsB l = true) : ('(' : Char) ∉ l :=
  notin_of_allDigits l h '(' (by left; decide)

theorem wfDate_spec (l : PyStr) (h : wfDate l = true) :
    ∃ y1 y2 y3 y4 m1 m2 d1 d2 : Char,
      l = [y1, y2, y3, y4, '-', m1, m2, '-', d1, d2]
      ∧ allDigitsB [y1, y2, y3, y4] = true
      ∧ allDigitsB [m1, m2] = true
      ∧ allDigitsB [d1, d2] = true
      ∧ 1 ≤ pyInt [m1, m2] ∧ pyInt [m1, m2] ≤ 12
      ∧ 1 ≤ pyInt [d1, d2] ∧ pyInt [d1, d2] ≤ 31 := by
  rcases l with _ | ⟨y1, _ | ⟨y2, _ | ⟨y3, _ | ⟨y4, _ | ⟨s1, _ | ⟨m1, _ | ⟨m2, _ |
    ⟨s2, _ | ⟨d1, _ | ⟨d2, _ | ⟨z, rest⟩⟩⟩⟩⟩⟩⟩⟩⟩⟩⟩ <;>
    simp [wfDate, Bool.and_eq_true, decide_eq_true_eq] at h
  obtain ⟨⟨⟨⟨⟨⟨⟨⟨hy, hs1⟩, hm⟩, hs2⟩, hd⟩, hm1⟩, hm12⟩, hd1⟩, hd31⟩ := h
  subst hs1
  subst hs2
  exact ⟨y1, y2, y3, y4, m1, m2, d1, d2, rfl, hy, hm, hd, hm1, hm12, hd1, hd31⟩

theorem parse_date_triple (ry ms ds : PyStr)
    (h1 : ('-' : Char) ∉ ry) (h2 : ('-' : Char) ∉ ms) (h3 : ('-' : Char) ∉ ds) :
    parse_date (ry ++ '-' :: (ms ++ '-' :: ds)) = ⟨pyInt ry, pyInt ms, pyInt ds⟩ := by
  unfold parse_date
  rw [pySplit_append, pySplit_nosep _ _ h1, pySplit_append, pySplit_nosep _ _ h2,
    pySplit_nosep _ _ h3]
  rfl

theorem lastday_bounds (y : Nat) (m : Int) (h1 : 1 ≤ m) (h2 : m ≤ 12) :
    28 ≤ lastdayofmonth y m ∧ lastdayofmonth y m ≤ 31 := by
  interval_cases m <;> simp [lastdayofmonth] <;>
    (try by_cases hl : leapYear y <;> simp [hl]) <;> omega

theorem intToPyStr_natCast (n : Nat) : intToPyStr (n : Int) = natToPyStr n := by
  unfold intToPyStr
  simp

theorem query_until_eq (t : ChunkedResumptionToken) :
    t.query_until =
      if pyStrLe (ensure_str t.until_) (nominal_until t) then ensure_str t.until_
      else nominal_until t := rfl

theorem until_month_spec (t : ChunkedResumptionToken) (m : Nat)
    (hm : pyInt ((t.query_from.drop 5).take 2) = m)
    (h1 : 1 ≤ m) (hcs : 1 ≤ t.chunk_size) :
    ∃ umN : Nat, 1 ≤ umN ∧ umN ≤ 12
      ∧ (m + t.chunk_size - 1 ≤ 12 → umN = m + t.chunk_size - 1)
      ∧ t.until_month = (umN : Int) := by
  unfold ChunkedResumptionToken.until_month
  rw [hm]
  by_cases hgt : ((m : Int) + (t.chunk_size : Int) - 1) > 12
  · refine ⟨12, by omega, by omega, fun hle => by omega, ?_⟩
    rw [if_pos hgt]
    norm_num
  · refine ⟨m + t.chunk_size - 1, by omega, by omega, fun _ => rfl, ?_⟩
    rw [if_neg hgt]
    push_cast
    omega

theorem pyInt_two (a b : Char) :
    pyInt [a, b] = (a.toNat - 48) * 10 + (b.toNat - 48) := by
  have h : pyInt [a, b] = 10 * (10 * 0 + (a.toNat - 48)) + (b.toNat - 48) := rfl
  omega

theorem digit_bounds (c : Char) (h : isDigitB c = true) :
    48 ≤ c.toNat ∧ c.toNat ≤ 57 := by
  simp [isDigitB] at h
  exact h

theorem month_first_digit (m1 m2 : Char) (hm : allDigitsB [m1, m2] = true)
    (h12 : pyInt [m1, m2] ≤ 12) : m1 = '0' ∨ m1 = '1' := by
  simp only [allDigitsB, List.all_cons, List.all_nil, Bool.and_eq_true] at hm
  have hb1 := digit_bounds m1 hm.1
  have hb2 := digit_bounds m2 hm.2.1
  have hv := pyInt_two m1 m2
  have : m1.toNat = 48 ∨ m1.toNat = 49 := by omega
  rcases this with h | h
  · exact Or.inl (char_eq_of_toNat _ _ (by rw [h]; rfl))
  · exact Or.inr (char_eq_of_toNat _ _ (by rw [h]; rfl))

theorem single_digit_month_case (umN : Nat) (hu1 : 1 ≤ umN) (hu9 : umN ≤ 9)
    (m1 m2 : Char) (hm : allDigitsB [m1, m2] = true) (h12 : pyInt [m1, m2] ≤ 12)
    (rest1 rest2 : PyStr)
    (hlt : pyStrLt (digitChar umN :: rest1) (m1 :: rest2) = true) :
    umN = 1 ∧ m1 = '1' := by
  have hd : (digitChar umN).toNat = 48 + umN := digitChar_toNat umN (by omega)
  rcases month_first_digit m1 m2 hm h12 with h0 | h0 <;> subst h0
  · exfalso
    have hne : ¬(digitChar umN = '0') := by
      intro e
      rw [e] at hd
      have h48 : ('0' : Char).toNat = 48 := rfl
      omega
    rw [pyStrLt_cons_ne _ _ _ _ hne] at hlt
    simp at hlt
    have h48 : ('0' : Char).toNat = 48 := rfl
    omega
  · by_cases he : digitChar umN = '1'
    · have h49 : ('1' : Char).toNat = 49 := rfl
      have : umN = 1 := by rw [he] at hd; omega
      exact ⟨this, rfl⟩
    · exfalso
      rw [pyStrLt_cons_ne _ _ _ _ he] at hlt
      simp at hlt
      have h49 : ('1' : Char).toNat = 49 := rfl
      omega

theorem two_digit_month_case (ms ds du : PyStr) (m1 m2 : Char)
    (hms : allDigitsB ms = true) (hlen : ms.length = 2)
    (hm : allDigitsB [m1, m2] = true)
    (hlt : pyStrLt (ms ++ '-' :: ds) ([m1, m2] ++ '-' :: du) = true) :
    (ms = [m1, m2] ∧ pyStrLt ds du = true)
    ∨ pyInt ms < pyInt [m1, m2] := by
  rw [pyStrLt_append_seg _ _ _ _ (by simp [hlen])] at hlt
  by_cases he : ms = [m1, m2]
  · rw [if_pos he, pyStrLt_cons_same] at hlt
    exact Or.inl ⟨he, hlt⟩
  · rw [if_neg he] at hlt
    exact Or.inr ((digits_lt_iff ms [m1, m2] hms hm (by simp [hlen])).mp hlt)

theorem query_until_setup (t : ChunkedResumptionToken) (off u : PyStr)
    (hoff : t.offset = some off) (hu : t.until_ = some u)
    (hwfr : wfDate (off.take 10) = true) (hcs : 1 ≤ t.chunk_size) :
    ∃ (ry : PyStr) (umN ld : Nat),
      ry = (off.take 10).take 4
      ∧ ry.length = 4
      ∧ allDigitsB ry = true
      ∧ 1 ≤ umN ∧ umN ≤ 12 ∧ 28 ≤ ld ∧ ld ≤ 31
      ∧ ensure_str t.until_ = u
      ∧ nominal_until t = ry ++ '-' :: (natToPyStr umN ++ '-' :: natToPyStr ld)
      ∧ parse_date (nominal_until t) = ⟨pyInt ry, umN, ld⟩ := by
  obtain ⟨r1, r2, r3, r4, rm1, rm2, rd1, rd2, hreq, hry, hrm, hrd, hrm1, hrm12, _, _⟩ :=
    wfDate_spec (off.take 10) hwfr
  have hqf : t.query_from = off.take 10 := by
    unfold ChunkedResumptionToken.query_from
    rw [hoff]
    rfl
  have hm_eq : pyInt ((t.query_from.drop 5).take 2) = pyInt [rm1, rm2] := by
    rw [hqf, hreq]
    rfl
  obtain ⟨umN, hu1, hu12, _, humeq⟩ :=
    until_month_spec t (pyInt [rm1, rm2]) hm_eq hrm1 hcs
  have hld := lastday_bounds (pyInt (t.query_from.take 4)) t.until_month
    (by rw [humeq]; exact_mod_cast hu1) (by rw [humeq]; exact_mod_cast hu12)
  have hue : ensure_str t.until_ = u := by rw [hu]; rfl
  have hnom : nominal_until t =
      [r1, r2, r3, r4] ++ '-' ::
        (natToPyStr umN ++ '-' ::
          natToPyStr (lastdayofmonth (pyInt (t.query_from.take 4)) t.until_month)) := by
    unfold nominal_until
    rw [humeq, intToPyStr_natCast,
      show t.query_from.take 4 = [r1, r2, r3, r4] from by rw [hqf, hreq]; rfl]
    simp
  refine ⟨[r1, r2, r3, r4], umN,
    lastdayofmonth (pyInt (t.query_from.take 4)) t.until_month,
    by rw [hreq]; rfl, rfl, hry, hu1, hu12, hld.1, hld.2, hue, hnom, ?_⟩
  rw [hnom]
  have hp := parse_date_triple [r1, r2, r3, r4] (natToPyStr umN)
    (natToPyStr (lastdayofmonth (pyInt (t.query_from.take 4)) t.until_month))
    (dash_notin_digits _ hry) (dash_notin_digits _ (natToPyStr_digits _))
    (dash_notin_digits _ (natToPyStr_digits _))
  rw [hp, pyInt_natToPyStr, pyInt_natToPyStr]

/-! ## Claim C10 -/

/-- C10 (confirmed): the chunk-end month is clamped to 12 within the
reference date's year, so for a chunked token with well-formed dates the
calendar date denoted by `query_until()` is at latest December 31 of the
offset reference date's year — a chunk never rolls into the following
year. -/
theorem query_until_stays_in_reference_year
    (t : ChunkedResumptionToken) (off u : PyStr)
    (hoff : t.offset = some off) (hu : t.until_ = some u)
    (hwfu : wfDate u = true) (hwfr : wfDate (off.take 10) = true)
    (hcs : 1 ≤ t.chunk_size) :
    dateLe (parse_date t.query_until)
      ⟨pyInt ((off.take 10).take 4), 12, 31⟩ := by
  obtain ⟨ry, umN, ld, hryeq, hrylen, hrydig, hu1, hu12, hld28, hld31, hue, hnom, hpn⟩ :=
    query_until_setup t off u hoff hu hwfr hcs
  obtain ⟨u1, u2, u3, u4, m1, m2, d1, d2, hueq, hudy, hudm, hudd, hm1a, hm12a, hd1a, hd31a⟩ :=
    wfDate_spec u hwfu
  rw [query_until_eq, hue]
  by_cases hbr : pyStrLe u (nominal_until t) = true
  · rw [if_pos hbr]
    have hpu : parse_date u = ⟨pyInt [u1, u2, u3, u4], pyInt [m1, m2], pyInt [d1, d2]⟩ := by
      rw [hueq]
      exact parse_date_triple _ _ _ (dash_notin_digits _ hudy)
        (dash_notin_digits _ hudm) (dash_notin_digits _ hudd)
    rw [hpu]
    rw [hueq, hnom] at hbr
    rw [show ([u1, u2, u3, u4, '-', m1, m2, '-', d1, d2] : PyStr) =
      [u1, u2, u3, u4] ++ '-' :: ([m1, m2] ++ '-' :: [d1, d2]) from rfl] at hbr
    rw [pyStrLe_append_seg _ _ _ _ (by simp [hrylen])] at hbr
    by_cases hyy : ([u1, u2, u3, u4] : PyStr) = ry
    · have hyv : pyInt [u1, u2, u3, u4] = pyInt ((off.take 10).take 4) := by
        rw [hyy, hryeq]
      unfold dateLe
      right
      refine ⟨hyv, ?_⟩
      dsimp only
      omega
    · rw [if_neg hyy] at hbr
      have hlt := (digits_lt_iff _ _ hudy hrydig (by simp [hrylen])).mp hbr
      unfold dateLe
      left
      rw [← hryeq]
      exact hlt
  · rw [if_neg hbr, hpn]
    unfold dateLe
    right
    refine ⟨by rw [hryeq], ?_⟩
    dsimp only
    omega

/-- C10 witness: a token whose chunk starts in November 2001 with
chunk size 3; the clamp keeps the chunk end inside 2001. -/
theorem query_until_stays_in_reference_year_witness :
    dateLe (parse_date novemberClampToken.query_until)
      ⟨pyInt (((pys "2001-11-15(0)").take 10).take 4), 12, 31⟩ :=
  query_until_stays_in_reference_year novemberClampToken
    (pys "2001-11-15(0)") (pys "2002-03-31") rfl rfl (by decide) (by decide)
    (by decide)

/-! ## Claim C7 -/

/-- C7 (confirmed): for a chunked token whose `until` field and offset
reference date are well-formed `YYYY-MM-DD` dates with the reference date
not after `until`, the calendar date denoted by `query_until()` never
exceeds the token's `until` field, even when the nominal chunk end would. -/
theorem query_until_never_exceeds_upper_bound
    (t : ChunkedResumptionToken) (off u : PyStr)
    (hoff : t.offset = some off) (hu : t.until_ = some u)
    (hwfu : wfDate u = true) (hwfr : wfDate (off.take 10) = true)
    (hcs : 1 ≤ t.chunk_size)
    (hle : dateLe (parse_date (off.take 10)) (parse_date u)) :
    dateLe (parse_date t.query_until) (parse_date u) := by
  obtain ⟨ry, umN, ld, hryeq, hrylen, hrydig, hu1, hu12, hld28, hld31, hue, hnom, hpn⟩ :=
    query_until_setup t off u hoff hu hwfr hcs
  obtain ⟨u1, u2, u3, u4, m1, m2, d1, d2, hueq, hudy, hudm, hudd, hm1a, hm12a, hd1a, hd31a⟩ :=
    wfDate_spec u hwfu
  rw [query_until_eq, hue]
  by_cases hbr : pyStrLe u (nominal_until t) = true
  · rw [if_pos hbr]
    unfold dateLe
    right
    exact ⟨rfl, Or.inr ⟨rfl, Nat.le_refl _⟩⟩
  · rw [if_neg hbr]
    have hlt : pyStrLt (nominal_until t) u = true :=
      pyStrLe_false_lt u (nominal_until t) (by
        cases hcase : pyStrLe u (nominal_until t)
        · rfl
        · exact absurd hcase hbr)
    have hpu : parse_date u = ⟨pyInt [u1, u2, u3, u4], pyInt [m1, m2], pyInt [d1, d2]⟩ := by
      rw [hueq]
      exact parse_date_triple _ _ _ (dash_notin_digits _ hudy)
        (dash_notin_digits _ hudm) (dash_notin_digits _ hudd)
    rw [hpn, hpu]
    rw [hnom, hueq] at hlt
    rw [show ([u1, u2, u3, u4, '-', m1, m2, '-', d1, d2] : PyStr) =
      [u1, u2, u3, u4] ++ '-' :: ([m1, m2] ++ '-' :: [d1, d2]) from rfl] at hlt
    rw [pyStrLt_append_seg _ _ _ _ (by simp [hrylen])] at hlt
    by_cases hyy : ry = ([u1, u2, u3, u4] : PyStr)
    · -- equal year prefixes
      rw [if_pos hyy, pyStrLt_cons_same] at hlt
      have hyv : pyInt ry = pyInt [u1, u2, u3, u4] := by rw [hyy]
      by_cases hsm : umN ≤ 9
      · -- single-digit nominal month
        rw [natToPyStr_single umN (by omega)] at hlt
        obtain ⟨hum1, hm1e⟩ := single_digit_month_case umN hu1 hsm m1 m2 hudm hm12a
          ('-' :: natToPyStr ld) (m2 :: '-' :: [d1, d2]) hlt
        subst hm1e
        have hmval := pyInt_two '1' m2
        have h49 : ('1' : Char).toNat = 49 := rfl
        have hb2 : 48 ≤ m2.toNat ∧ m2.toNat ≤ 57 := by
          simp only [allDigitsB, List.all_cons, List.all_nil, Bool.and_eq_true] at hudm
          exact digit_bounds m2 hudm.2.1
        unfold dateLe
        right
        refine ⟨hyv, Or.inl ?_⟩
        dsimp only
        omega
      · -- two-digit nominal month (10, 11 or 12)
        have h10 : 10 ≤ umN := by omega
        have hlen2 : (natToPyStr umN).length = 2 := by
          rw [natToPyStr_two umN h10 (by omega)]
          rfl
        rcases two_digit_month_case (natToPyStr umN) (natToPyStr ld) [d1, d2] m1 m2
          (natToPyStr_digits umN) hlen2 hudm hlt with ⟨hme, hdays⟩ | hmlt
        · -- equal months: compare days
          have hmv : umN = pyInt [m1, m2] := by
            rw [← hme, pyInt_natToPyStr]
          have hldlen : (natToPyStr ld).length = 2 := by
            rw [natToPyStr_two ld (by omega) (by omega)]
            rfl
          have hdlt := (digits_lt_iff (natToPyStr ld) [d1, d2]
            (natToPyStr_digits ld) hudd (by simp [hldlen])).mp hdays
          rw [pyInt_natToPyStr] at hdlt
          unfold dateLe
          right
          refine ⟨hyv, Or.inr ⟨hmv, ?_⟩⟩
          dsimp only
          omega
        · -- nominal month strictly smaller
          rw [pyInt_natToPyStr] at hmlt
          unfold dateLe
          right
          refine ⟨hyv, Or.inl ?_⟩
          dsimp only
          exact hmlt
    · -- different year prefixes
      rw [if_neg hyy] at hlt
      have := (digits_lt_iff _ _ hrydig hudy (by simp [hrylen])).mp hlt
      unfold dateLe
      left
      exact this

/-- C7 witness: a November chunk whose nominal end (1998-12-31) precedes the
upper bound 1999-06-30; the denoted date stays at or before the bound. -/
theorem query_until_never_exceeds_upper_bound_witness :
    dateLe (parse_date novemberChunkToken.query_until)
      (parse_date (pys "1999-06-30")) :=
  query_until_never_exceeds_upper_bound novemberChunkToken
    (pys "1998-11-01(0)") (pys "1999-06-30") rfl rfl (by decide) (by decide)
    (by decide) (by decide)

/-- C1 witness: the amended claim instantiated at the concrete plain and
chunked example tokens with full two-element pages. -/
theorem next_advances_offset_by_count_witness :
    (plain_next examplePlainToken [(), ()] = some (plain_incr_offset examplePlainToken)
      ∧ (plain_incr_offset examplePlainToken).offset =
          some (natToPyStr (pyInt (ensure_str examplePlainToken.offset)
            + pyInt (ensure_str examplePlainToken.count)))
      ∧ pyInt (ensure_str (plain_incr_offset examplePlainToken).offset) =
          pyInt (ensure_str examplePlainToken.offset)
            + pyInt (ensure_str examplePlainToken.count))
    ∧ (exampleChunkToken.next [(), ()] = some exampleChunkToken.incr_offset_size
      ∧ exampleChunkToken.incr_offset_size.query_offset =
          exampleChunkToken.query_offset + pyInt (ensure_str exampleChunkToken.count)) :=
  ⟨next_advances_offset_by_count.1 examplePlainToken [(), ()] (by decide),
    next_advances_offset_by_count.2 exampleChunkToken [(), ()] (by decide) (by decide)⟩
